import Mathlib

/-!
Verification of the APOD application's fetcher and cache store
(`src/APOD_app_v1.1.py`): a shallow embedding of `fetch_apod` and
`update_apod_db`, and proofs of the specified properties.

A Python dict parsed from JSON is modelled as an association list from
string keys to string values; an HTTP response carries a status code and
an optional parsed body (`none` models an unparseable body); a function
that can raise an uncaught Python exception returns `Except String`.
-/

namespace APOD

/-- A parsed JSON object / Python dict: keys mapped to string values.
`[]` is the empty dict `{}` that `fetch_apod` uses as its failure signal. -/
abbrev ApodData := List (String × String)

/-- Python `data.get(k)`: `some v` when the key is present, `none` otherwise. -/
def getKey (data : ApodData) (k : String) : Option String :=
  data.lookup k

/-- Python `k in data`. -/
def hasKey (data : ApodData) (k : String) : Bool :=
  (getKey data k).isSome

/-- Python `data[k]`: the value, or an uncaught `KeyError` when absent. -/
def getItem (data : ApodData) (k : String) : Except String String :=
  match getKey data k with
  | some v => Except.ok v
  | none => Except.error ("KeyError: " ++ k)

/-- The remote service's HTTP response: status code and body.
`body = none` models a body that is not parseable JSON, on which
`response.json()` raises; `body = some b` the parsed JSON object `b`. -/
structure Response where
  status_code : Nat
  body : Option ApodData

set_option linter.unusedVariables false in
/-- `fetch_apod` (`src/APOD_app_v1.1.py` lines 16-36). The requested `date`
only feeds the query URL; the function returns the parsed body unchanged when
the status is 200 and the body has a `date` key, returns the empty dict on a
non-200 status or a missing `date` key, and lets the `response.json()` parse
exception escape (`Except.error`) on a 200 status with an unparseable body. -/
def fetch_apod (date : String) (response : Response) : Except String ApodData :=
  if response.status_code = 200 then
    match response.body with
    | none => Except.error "JSONDecodeError"
    | some apod_data =>
      if hasKey apod_data "date" then
        Except.ok apod_data
      else
        Except.ok []
  else
    Except.ok []

/-- One row of the cache dataset, with the seven columns of the DataFrame
built in `update_apod_db` (lines 41-49). -/
structure Row where
  date : String
  title : String
  explanation : String
  copyright : String
  media_type : String
  url : String
  hdurl : String
deriving DecidableEq, Repr

/-- The `new_data` DataFrame row of `update_apod_db` (lines 41-49): the dict
literal's entries are evaluated in order, each required subscript `data[k]`
raising `KeyError` when the key is absent, while `copyright` and `hdurl` use
`data.get` with defaults `'No copyright info'` and `''`. -/
def new_data (data : ApodData) : Except String Row :=
  match getItem data "date" with
  | .error e => .error e
  | .ok date =>
    match getItem data "title" with
    | .error e => .error e
    | .ok title =>
      match getItem data "explanation" with
      | .error e => .error e
      | .ok explanation =>
        let copyright := (getKey data "copyright").getD "No copyright info"
        match getItem data "media_type" with
        | .error e => .error e
        | .ok media_type =>
          match getItem data "url" with
          | .error e => .error e
          | .ok url =>
            let hdurl := (getKey data "hdurl").getD ""
            .ok { date, title, explanation, copyright, media_type, url, hdurl }

/-- The CSV header `to_csv` writes: the DataFrame's column order. -/
def csvHeader : List String :=
  ["date", "title", "explanation", "copyright", "media_type", "url", "hdurl"]

/-- The cells of one persisted CSV line, in the DataFrame's column order. -/
def rowCells (r : Row) : List String :=
  [r.date, r.title, r.explanation, r.copyright, r.media_type, r.url, r.hdurl]

/-- `apod_df.to_csv(db_file, index=False)` (line 63): header line, then one
line of the seven cells per row; `index=False` persists no row-index column. -/
def to_csv (df : List Row) : List (List String) :=
  csvHeader :: df.map rowCells

/-- Outcome of a successful `update_apod_db` call: `apod_df` is the DataFrame
returned to the caller (line 64) and `written` the content serialized over the
previous content of the same file `db_file` (line 63); they are views of the
same DataFrame. -/
structure UpdateResult where
  apod_df : List Row
  written : List (List String)
deriving DecidableEq, Repr

/-- `update_apod_db` (lines 39-64). The file at `db_file` is passed explicitly:
`none` when it does not exist, `some df` its parsed data rows (a header-only
file parses to `some []`). On a missing required key the `KeyError` from the
`new_data` construction escapes before the file is read or written. -/
def update_apod_db (data : ApodData) (file : Option (List Row)) :
    Except String UpdateResult :=
  match new_data data with
  | .error e => .error e
  | .ok new_row =>
    match file with
    | some apod_df0 =>
      match getItem data "date" with
      | .error e => .error e
      | .ok d =>
        let apod_df :=
          if apod_df0.any (fun r => r.date == d) then apod_df0
          else apod_df0 ++ [new_row]
        .ok { apod_df := apod_df, written := to_csv apod_df }
    | none =>
      .ok { apod_df := [new_row], written := to_csv [new_row] }

/-- Folding `update_apod_db` over a list of records, threading the file state:
the dataset each call returns is what the next call reads back. -/
def upsertList : List ApodData → Option (List Row) → Except String (Option (List Row))
  | [], file => Except.ok file
  | data :: rest, file =>
    match update_apod_db data file with
    | .error e => .error e
    | .ok res => upsertList rest (some res.apod_df)

/-- The five keys `update_apod_db` reads with a raising subscript. -/
def requiredKeys : List String :=
  ["date", "title", "explanation", "media_type", "url"]

/-- All five required keys are present in the record. -/
def requiredPresent (data : ApodData) : Bool :=
  requiredKeys.all (fun k => hasKey data k)

/-- The row `new_data` produces when all required keys are present
(see `new_data_eq_mkRow`). -/
def mkRow (data : ApodData) : Row :=
  { date := (getKey data "date").getD ""
    title := (getKey data "title").getD ""
    explanation := (getKey data "explanation").getD ""
    copyright := (getKey data "copyright").getD "No copyright info"
    media_type := (getKey data "media_type").getD ""
    url := (getKey data "url").getD ""
    hdurl := (getKey data "hdurl").getD "" }

/-- The record's date as `update_apod_db` uses it, defined when the required
keys are present. -/
def dateOf (data : ApodData) : String :=
  (getKey data "date").getD ""

example : fetch_apod "2024-01-01" ⟨200, some [("date", "2024-01-01")]⟩ =
    Except.ok [("date", "2024-01-01")] := rfl

example : fetch_apod "2024-01-01" ⟨404, some [("date", "2024-01-01")]⟩ =
    Except.ok [] := rfl

example : fetch_apod "2024-01-01" ⟨200, none⟩ = Except.error "JSONDecodeError" := rfl

example :
    update_apod_db
      [("date", "2024-01-01"), ("title", "T1"), ("explanation", "E"),
        ("media_type", "image"), ("url", "http://x/1")] none =
    Except.ok
      { apod_df := [⟨"2024-01-01", "T1", "E", "No copyright info", "image", "http://x/1", ""⟩],
        written :=
          [["date", "title", "explanation", "copyright", "media_type", "url", "hdurl"],
            ["2024-01-01", "T1", "E", "No copyright info", "image", "http://x/1", ""]] } := rfl

example :
    update_apod_db [("date", "2024-01-01")] (some []) =
    Except.error "KeyError: title" := rfl

theorem getItem_eq_ok (data : ApodData) (k v : String) (h : getKey data k = some v) :
    getItem data k = Except.ok v := by
  simp [getItem, h]

theorem mkRow_date (data : ApodData) : (mkRow data).date = dateOf data := rfl

theorem requiredPresent_iff (data : ApodData) :
    requiredPresent data = true ↔
      (∃ v, getKey data "date" = some v) ∧ (∃ v, getKey data "title" = some v) ∧
      (∃ v, getKey data "explanation" = some v) ∧ (∃ v, getKey data "media_type" = some v) ∧
      (∃ v, getKey data "url" = some v) := by
  simp [requiredPresent, requiredKeys, hasKey, Option.isSome_iff_exists]

theorem getKey_date (data : ApodData) (hreq : requiredPresent data = true) :
    getKey data "date" = some (dateOf data) := by
  obtain ⟨⟨v, hv⟩, -⟩ := (requiredPresent_iff data).mp hreq
  simp [dateOf, hv]

theorem new_data_eq_mkRow (data : ApodData) (hreq : requiredPresent data = true) :
    new_data data = Except.ok (mkRow data) := by
  obtain ⟨⟨vd, hd⟩, ⟨vt, ht⟩, ⟨ve, he⟩, ⟨vm, hm⟩, ⟨vu, hu⟩⟩ :=
    (requiredPresent_iff data).mp hreq
  simp [new_data, getItem, mkRow, hd, ht, he, hm, hu]

theorem new_data_ok_inv (data : ApodData) (row : Row)
    (h : new_data data = Except.ok row) :
    requiredPresent data = true ∧ row = mkRow data := by
  rcases hd : getKey data "date" with _ | vd <;>
    rcases ht : getKey data "title" with _ | vt <;>
      rcases he : getKey data "explanation" with _ | ve <;>
        rcases hm : getKey data "media_type" with _ | vm <;>
          rcases hu : getKey data "url" with _ | vu <;>
            simp_all [new_data, getItem, mkRow, requiredPresent_iff]

theorem new_data_error (data : ApodData) (hreq : requiredPresent data = false) :
    ∃ k, k ∈ requiredKeys ∧ getKey data k = none ∧
      new_data data = Except.error ("KeyError: " ++ k) := by
  rcases hd : getKey data "date" with _ | vd
  · exact ⟨"date", by simp [requiredKeys], hd, by simp [new_data, getItem, hd]⟩
  rcases ht : getKey data "title" with _ | vt
  · exact ⟨"title", by simp [requiredKeys], ht, by simp [new_data, getItem, hd, ht]⟩
  rcases he : getKey data "explanation" with _ | ve
  · exact ⟨"explanation", by simp [requiredKeys], he,
      by simp [new_data, getItem, hd, ht, he]⟩
  rcases hm : getKey data "media_type" with _ | vm
  · exact ⟨"media_type", by simp [requiredKeys], hm,
      by simp [new_data, getItem, hd, ht, he, hm]⟩
  rcases hu : getKey data "url" with _ | vu
  · exact ⟨"url", by simp [requiredKeys], hu,
      by simp [new_data, getItem, hd, ht, he, hm, hu]⟩
  rw [(requiredPresent_iff data).mpr
    ⟨⟨vd, hd⟩, ⟨vt, ht⟩, ⟨ve, he⟩, ⟨vm, hm⟩, ⟨vu, hu⟩⟩] at hreq
  cases hreq

theorem update_apod_db_mem (data : ApodData) (df : List Row)
    (hreq : requiredPresent data = true) (hmem : dateOf data ∈ df.map Row.date) :
    update_apod_db data (some df) = Except.ok ⟨df, to_csv df⟩ := by
  obtain ⟨r, hr, hrd⟩ := List.mem_map.mp hmem
  have hany : df.any (fun r => r.date == dateOf data) = true :=
    List.any_eq_true.mpr ⟨r, hr, by simp [hrd]⟩
  simp [update_apod_db, new_data_eq_mkRow data hreq,
    getItem_eq_ok data "date" (dateOf data) (getKey_date data hreq), hany]

theorem update_apod_db_not_mem (data : ApodData) (df : List Row)
    (hreq : requiredPresent data = true) (hmem : dateOf data ∉ df.map Row.date) :
    update_apod_db data (some df) =
      Except.ok ⟨df ++ [mkRow data], to_csv (df ++ [mkRow data])⟩ := by
  have hany : df.any (fun r => r.date == dateOf data) = false := by
    rw [List.any_eq_false]
    intro r hr hrd
    exact hmem (List.mem_map.mpr ⟨r, hr, by simpa using hrd⟩)
  simp [update_apod_db, new_data_eq_mkRow data hreq,
    getItem_eq_ok data "date" (dateOf data) (getKey_date data hreq), hany]

theorem update_apod_db_none (data : ApodData) (hreq : requiredPresent data = true) :
    update_apod_db data none = Except.ok ⟨[mkRow data], to_csv [mkRow data]⟩ := by
  simp [update_apod_db, new_data_eq_mkRow data hreq]

theorem upsertList_disjoint (recs : List ApodData) (df : List Row)
    (hreq : ∀ r ∈ recs, requiredPresent r = true)
    (hnodup : (recs.map dateOf).Nodup)
    (hdisj : ∀ r ∈ recs, dateOf r ∉ df.map Row.date) :
    upsertList recs (some df) = Except.ok (some (df ++ recs.map mkRow)) := by
  induction recs generalizing df with
  | nil => simp [upsertList]
  | cons r rest ih =>
    rw [List.map_cons, List.nodup_cons] at hnodup
    have h1 := update_apod_db_not_mem r df (hreq r (by simp)) (hdisj r (by simp))
    have h2 := ih (df ++ [mkRow r])
      (fun x hx => hreq x (List.mem_cons_of_mem r hx)) hnodup.2
      (by
        intro x hx
        rw [List.map_append, List.mem_append]
        rintro (hin | hin)
        · exact hdisj x (List.mem_cons_of_mem r hx) hin
        · rw [List.map_singleton, mkRow_date, List.mem_singleton] at hin
          exact hnodup.1 (hin ▸ List.mem_map_of_mem dateOf hx))
    simp [upsertList, h1, h2]

theorem upsertList_same_date (recs : List ApodData) (df : List Row) (d : String)
    (h : ∀ r ∈ recs, requiredPresent r = true ∧ dateOf r = d)
    (hmem : d ∈ df.map Row.date) :
    upsertList recs (some df) = Except.ok (some df) := by
  induction recs with
  | nil => simp [upsertList]
  | cons r rest ih =>
    obtain ⟨hr, hrd⟩ := h r (by simp)
    have h1 := update_apod_db_mem r df hr (hrd ▸ hmem)
    simp [upsertList, h1, ih (fun x hx => h x (List.mem_cons_of_mem r hx))]

/-- Sample record with all seven keys present. -/
def rec3 : ApodData :=
  [("date", "2024-01-02"), ("title", "T3"), ("explanation", "E3"),
    ("media_type", "video"), ("url", "http://x/3"), ("copyright", "C3"),
    ("hdurl", "http://x/3hd")]

/-- Sample record with only the five required keys. -/
def rec1 : ApodData :=
  [("date", "2024-01-01"), ("title", "T1"), ("explanation", "E"),
    ("media_type", "image"), ("url", "http://x/1")]

/-- Sample record sharing `rec1`'s date with different other fields. -/
def rec2 : ApodData :=
  [("date", "2024-01-01"), ("title", "T2"), ("explanation", "E2"),
    ("media_type", "image"), ("url", "http://x/2")]

/-- The row `update_apod_db` builds from `rec1`. -/
def row1 : Row :=
  ⟨"2024-01-01", "T1", "E", "No copyright info", "image", "http://x/1", ""⟩

/-- The row `update_apod_db` builds from `rec3`. -/
def row3 : Row :=
  ⟨"2024-01-02", "T3", "E3", "C3", "video", "http://x/3", "http://x/3hd"⟩

/-- Claim C1: date uniqueness is an invariant of the cache store: whenever the
dataset read from the file has pairwise distinct dates (an absent file reads
as no rows), the dataset a successful `update_apod_db` call writes back and
returns again has pairwise distinct dates. -/
theorem C1_date_unique (data : ApodData) (file : Option (List Row))
    (res : UpdateResult)
    (hnodup : ((file.getD []).map Row.date).Nodup)
    (h : update_apod_db data file = Except.ok res) :
    (res.apod_df.map Row.date).Nodup := by
  rcases hnd : new_data data with e | row
  · simp [update_apod_db, hnd] at h
  obtain ⟨hreq, -⟩ := new_data_ok_inv data row hnd
  rcases file with _ | df
  · rw [update_apod_db_none data hreq] at h
    injection h with h
    subst h
    simp
  · rw [Option.getD_some] at hnodup
    by_cases hmem : dateOf data ∈ df.map Row.date
    · rw [update_apod_db_mem data df hreq hmem] at h
      injection h with h
      subst h
      exact hnodup
    · rw [update_apod_db_not_mem data df hreq hmem] at h
      injection h with h
      subst h
      show ((df ++ [mkRow data]).map Row.date).Nodup
      rw [List.map_append, List.map_singleton, mkRow_date, List.nodup_append]
      refine ⟨hnodup, List.nodup_singleton _, ?_⟩
      intro a ha hb
      rw [List.mem_singleton] at hb
      exact hmem (hb ▸ ha)

/-- Claim C1 witness at a concrete record and one-row file. -/
theorem C1_date_unique_witness : (([row1, row3] : List Row).map Row.date).Nodup :=
  C1_date_unique rec3 (some [row1]) ⟨[row1, row3], to_csv [row1, row3]⟩
    (by decide) rfl

/-- Claim C2: upsert is idempotent and de-dup takes priority over update: when
the file already holds a row with the incoming record's date, `update_apod_db`
returns (and rewrites) the dataset unchanged with the original row's fields
retained, whatever the record's other fields; and any nonempty sequence of
upserts of records sharing one date, starting from an absent file, yields a
dataset of exactly one row carrying that date. -/
theorem C2_idempotent_dedup :
    (∀ (data : ApodData) (df : List Row), requiredPresent data = true →
      dateOf data ∈ df.map Row.date →
      update_apod_db data (some df) = Except.ok ⟨df, to_csv df⟩) ∧
    (∀ (d : String) (recs : List ApodData), recs ≠ [] →
      (∀ r ∈ recs, requiredPresent r = true ∧ dateOf r = d) →
      ∃ l, upsertList recs none = Except.ok (some l) ∧
        l.length = 1 ∧ l.map Row.date = [d]) := by
  constructor
  · exact fun data df hreq hmem => update_apod_db_mem data df hreq hmem
  · rintro d (_ | ⟨r, rest⟩) hne hall
    · exact absurd rfl hne
    obtain ⟨hr, hrd⟩ := hall r (by simp)
    refine ⟨[mkRow r], ?_, by simp, by simp [mkRow_date, hrd]⟩
    have h0 := update_apod_db_none r hr
    have h1 := upsertList_same_date rest [mkRow r] d
      (fun x hx => hall x (List.mem_cons_of_mem r hx))
      (by simp [mkRow_date, hrd])
    simp [upsertList, h0, h1]

/-- Claim C2 witness: a same-date, different-title record leaves the dataset
unchanged, and two upserts of one date from an absent file give one row. -/
theorem C2_idempotent_dedup_witness :
    update_apod_db rec2 (some [row1]) = Except.ok ⟨[row1], to_csv [row1]⟩ ∧
    ∃ l, upsertList [rec1, rec2] none = Except.ok (some l) ∧
      l.length = 1 ∧ l.map Row.date = ["2024-01-01"] :=
  ⟨C2_idempotent_dedup.1 rec2 [row1] (by decide) (by decide),
    C2_idempotent_dedup.2 "2024-01-01" [rec1, rec2] (by decide) (by decide)⟩

/-- Claim C4: a sequence of upserts with pairwise distinct dates, starting
from an absent file or from an empty dataset, succeeds and yields exactly one
row per record, in order: the row count equals the number of (distinct) dates
seen, and each row is the `mkRow` of its record — the record's seven fields
with `'No copyright info'` substituted for an absent `copyright` and `''` for
an absent `hdurl`, and the record's own date. -/
theorem C4_distinct_dates (recs : List ApodData)
    (hreq : ∀ r ∈ recs, requiredPresent r = true)
    (hnodup : (recs.map dateOf).Nodup) :
    upsertList recs (some []) = Except.ok (some (recs.map mkRow)) ∧
    (recs ≠ [] → upsertList recs none = Except.ok (some (recs.map mkRow))) ∧
    (recs.map mkRow).length = (recs.map dateOf).length ∧
    ∀ r ∈ recs,
      (getKey r "copyright" = none → (mkRow r).copyright = "No copyright info") ∧
      (getKey r "hdurl" = none → (mkRow r).hdurl = "") ∧
      (mkRow r).date = dateOf r := by
  refine ⟨?_, ?_, by simp, ?_⟩
  · simpa using upsertList_disjoint recs [] hreq hnodup (by simp)
  · intro hne
    match recs, hreq, hnodup with
    | r :: rest, hreq, hnodup =>
      rw [List.map_cons, List.nodup_cons] at hnodup
      have h0 := update_apod_db_none r (hreq r (by simp))
      have h1 := upsertList_disjoint rest [mkRow r]
        (fun x hx => hreq x (List.mem_cons_of_mem r hx)) hnodup.2
        (by
          intro x hx
          rw [List.map_singleton, mkRow_date, List.mem_singleton]
          intro hin
          exact hnodup.1 (hin ▸ List.mem_map_of_mem dateOf hx))
      simp [upsertList, h0, h1]
  · intro r hr
    exact ⟨fun h => by simp [mkRow, h], fun h => by simp [mkRow, h], rfl⟩

/-- Claim C4 witness at two records with distinct dates. -/
theorem C4_distinct_dates_witness :
    upsertList [rec1, rec3] (some []) =
      Except.ok (some ([rec1, rec3].map mkRow)) ∧
    ([rec1, rec3] ≠ [] → upsertList [rec1, rec3] none =
      Except.ok (some ([rec1, rec3].map mkRow))) ∧
    ([rec1, rec3].map mkRow).length = ([rec1, rec3].map dateOf).length ∧
    ∀ r ∈ [rec1, rec3],
      (getKey r "copyright" = none → (mkRow r).copyright = "No copyright info") ∧
      (getKey r "hdurl" = none → (mkRow r).hdurl = "") ∧
      (mkRow r).date = dateOf r :=
  C4_distinct_dates [rec1, rec3] (by decide) (by decide)

/-- Claim C8: after every successful upsert the full dataset — exactly the one
returned to the caller — is serialized over the previous content of the file
(the one file slot of the model, i.e. the same `db_file` path): the written
content is `to_csv` of the returned dataset, its first line is the header in
the fixed column order, and no line carries a row-index cell: every line has
exactly the seven schema cells. -/
theorem C8_full_rewrite (data : ApodData) (file : Option (List Row))
    (res : UpdateResult) (h : update_apod_db data file = Except.ok res) :
    res.written = to_csv res.apod_df ∧
    res.written.head? =
      some ["date", "title", "explanation", "copyright", "media_type", "url",
        "hdurl"] ∧
    ∀ line ∈ res.written, line.length = 7 := by
  rcases hnd : new_data data with e | row
  · simp [update_apod_db, hnd] at h
  obtain ⟨hreq, -⟩ := new_data_ok_inv data row hnd
  have hres : ∃ dfres, res = ⟨dfres, to_csv dfres⟩ := by
    rcases file with _ | df
    · rw [update_apod_db_none data hreq] at h
      injection h with h
      exact ⟨[mkRow data], h.symm⟩
    · by_cases hmem : dateOf data ∈ df.map Row.date
      · rw [update_apod_db_mem data df hreq hmem] at h
        injection h with h
        exact ⟨df, h.symm⟩
      · rw [update_apod_db_not_mem data df hreq hmem] at h
        injection h with h
        exact ⟨df ++ [mkRow data], h.symm⟩
  obtain ⟨dfres, rfl⟩ := hres
  refine ⟨rfl, rfl, ?_⟩
  intro line hline
  rcases List.mem_cons.mp hline with hl | hl
  · subst hl; rfl
  · obtain ⟨r, -, rfl⟩ := List.mem_map.mp hl
    rfl

/-- Claim C8 witness at a concrete first upsert. -/
theorem C8_full_rewrite_witness :
    (to_csv [row1] : List (List String)) = to_csv [row1] ∧
    (to_csv [row1]).head? =
      some ["date", "title", "explanation", "copyright", "media_type", "url",
        "hdurl"] ∧
    ∀ line ∈ to_csv [row1], line.length = 7 :=
  C8_full_rewrite rec1 none ⟨[row1], to_csv [row1]⟩ rfl

/-- Claim C9: `update_apod_db` requires the five keys `date`, `title`,
`explanation`, `media_type`, `url`: it succeeds exactly when all five are
present in the record (`copyright` and `hdurl` may be absent — they are
defaulted), and when one is absent it raises a `KeyError` naming the first
absent key in evaluation order, identically for every file state — the error
escapes from the `new_data` construction, before the file is read or
written (no `UpdateResult`, hence no write, is produced). -/
theorem C9_required_keys (data : ApodData) (file : Option (List Row)) :
    ((∃ res, update_apod_db data file = Except.ok res) ↔
      requiredPresent data = true) ∧
    (requiredPresent data = false →
      ∃ k, k ∈ requiredKeys ∧ getKey data k = none ∧
        update_apod_db data file = Except.error ("KeyError: " ++ k)) := by
  constructor
  · constructor
    · rintro ⟨res, h⟩
      rcases hnd : new_data data with e | row
      · simp [update_apod_db, hnd] at h
      · exact (new_data_ok_inv data row hnd).1
    · intro hreq
      rcases file with _ | df
      · exact ⟨_, update_apod_db_none data hreq⟩
      · by_cases hmem : dateOf data ∈ df.map Row.date
        · exact ⟨_, update_apod_db_mem data df hreq hmem⟩
        · exact ⟨_, update_apod_db_not_mem data df hreq hmem⟩
  · intro hreq
    obtain ⟨k, hk, hnone, hnd⟩ := new_data_error data hreq
    exact ⟨k, hk, hnone, by simp [update_apod_db, hnd]⟩

/-- Claim C9 witness: a record with a date but no title fails with a
`KeyError` on `title`, and the fetched-shape record `rec1` succeeds. -/
theorem C9_required_keys_witness :
    ((∃ res, update_apod_db [("date", "2024-01-01")] (some []) = Except.ok res) ↔
      requiredPresent [("date", "2024-01-01")] = true) ∧
    (requiredPresent [("date", "2024-01-01")] = false →
      ∃ k, k ∈ requiredKeys ∧ getKey [("date", "2024-01-01")] k = none ∧
        update_apod_db [("date", "2024-01-01")] (some []) =
          Except.error ("KeyError: " ++ k)) :=
  C9_required_keys [("date", "2024-01-01")] (some [])

/-- A successful remote response to the query for date `d`, per the remote
interface (spec section 6): HTTP status 200 and a parseable JSON body whose
`date` field carries the queried date. -/
def Response.successfulFor (r : Response) (d : String) : Prop :=
  r.status_code = 200 ∧ ∃ b, r.body = some b ∧ getKey b "date" = some d

/-- Claim C6: for every requested date with a successful remote response,
`fetch_apod` returns a record whose `date` field equals the requested date
(the parsed body is returned unchanged). -/
theorem C6_date_matches (d : String) (r : Response) (h : r.successfulFor d) :
    ∃ v, fetch_apod d r = Except.ok v ∧ getKey v "date" = some d := by
  obtain ⟨h200, b, hb, hd⟩ := h
  refine ⟨b, ?_, hd⟩
  simp [fetch_apod, h200, hb, hasKey, hd]

/-- Claim C6 witness at a concrete date and response. -/
theorem C6_date_matches_witness :
    ∃ v, fetch_apod "2024-01-01" ⟨200, some rec1⟩ = Except.ok v ∧
      getKey v "date" = some "2024-01-01" :=
  C6_date_matches "2024-01-01" ⟨200, some rec1⟩ ⟨rfl, rec1, rfl, by decide⟩

/-- Claim C7: a non-success (non-200) status makes `fetch_apod` return the
empty dict, and so does a 200 response whose parsed body lacks the `date`
key. -/
theorem C7_failure_empty (d : String) (r : Response) :
    (r.status_code ≠ 200 → fetch_apod d r = Except.ok []) ∧
    (∀ b, r.status_code = 200 → r.body = some b → hasKey b "date" = false →
      fetch_apod d r = Except.ok []) := by
  constructor
  · intro h
    simp [fetch_apod, h]
  · intro b h200 hb hdate
    simp [fetch_apod, h200, hb, hdate]

/-- Claim C7 witness: a 404 response and a dateless 200 body both yield the
empty dict. -/
theorem C7_failure_empty_witness :
    fetch_apod "2024-01-01" ⟨404, some rec1⟩ = Except.ok [] ∧
    fetch_apod "2024-01-01" ⟨200, some [("title", "T")]⟩ = Except.ok [] :=
  ⟨(C7_failure_empty "2024-01-01" ⟨404, some rec1⟩).1 (by decide),
    (C7_failure_empty "2024-01-01" ⟨200, some [("title", "T")]⟩).2
      [("title", "T")] rfl rfl (by decide)⟩

/-- Claim C10: every dict `fetch_apod` returns is the empty dict or contains
the `date` key, so the caller's emptiness check coincides with date-key
presence: a returned dict is nonempty exactly when it has a `date` field. -/
theorem C10_empty_or_dated (d : String) (r : Response) (v : ApodData)
    (h : fetch_apod d r = Except.ok v) :
    (v = [] ∨ hasKey v "date" = true) ∧ (v ≠ [] ↔ hasKey v "date" = true) := by
  have hv : v = [] ∨ hasKey v "date" = true := by
    by_cases h200 : r.status_code = 200
    · rcases hb : r.body with _ | b
      · simp [fetch_apod, h200, hb] at h
      · by_cases hd : hasKey b "date"
        · right
          simp [fetch_apod, h200, hb, hd] at h
          exact h ▸ hd
        · left
          simp [fetch_apod, h200, hb, hd] at h
          exact h
    · left
      simp [fetch_apod, h200] at h
      exact h
  refine ⟨hv, ?_, ?_⟩
  · intro hne
    rcases hv with rfl | hk
    · exact absurd rfl hne
    · exact hk
  · intro hk
    rintro rfl
    simp [hasKey, getKey] at hk

/-- Claim C10 witness at a populated and a failing response. -/
theorem C10_empty_or_dated_witness :
    (rec1 = [] ∨ hasKey rec1 "date" = true) ∧
    (rec1 ≠ [] ↔ hasKey rec1 "date" = true) :=
  C10_empty_or_dated "2024-01-01" ⟨200, some rec1⟩ rec1 rfl

/-- Claim C3 as stated fails on the code: on a 200 status with an unparseable
body, `response.json()` raises and the exception escapes `fetch_apod` instead
of the empty dict being returned. -/
theorem C3_counterexample :
    fetch_apod "2024-01-01" ⟨200, none⟩ = Except.error "JSONDecodeError" ∧
    fetch_apod "2024-01-01" ⟨200, none⟩ ≠ Except.ok [] :=
  ⟨rfl, by intro h; simp [fetch_apod] at h⟩

/-- Claim C3 amended: `fetch_apod` returns the empty dict, raising nothing, on
a non-success status and on a success response whose parsed body lacks the
`date` key; but a success response whose body is unparseable raises the JSON
parse error past the boundary. -/
theorem C3_failure_signal (d : String) (r : Response) :
    (r.status_code ≠ 200 → fetch_apod d r = Except.ok []) ∧
    (∀ b, r.status_code = 200 → r.body = some b → hasKey b "date" = false →
      fetch_apod d r = Except.ok []) ∧
    (r.status_code = 200 → r.body = none →
      fetch_apod d r = Except.error "JSONDecodeError") := by
  refine ⟨fun h => by simp [fetch_apod, h], ?_, ?_⟩
  · intro b h200 hb hdate
    simp [fetch_apod, h200, hb, hdate]
  · intro h200 hb
    simp [fetch_apod, h200, hb]

/-- Claim C3 (amended) witness: a 500 response and a dateless 200 body yield
the empty dict; an unparseable 200 body raises. -/
theorem C3_failure_signal_witness :
    fetch_apod "2024-01-01" ⟨500, none⟩ = Except.ok [] ∧
    fetch_apod "2024-01-01" ⟨200, some [("msg", "rate limited")]⟩ =
      Except.ok [] ∧
    fetch_apod "2024-01-02" ⟨200, none⟩ = Except.error "JSONDecodeError" :=
  ⟨(C3_failure_signal "2024-01-01" ⟨500, none⟩).1 (by decide),
    (C3_failure_signal "2024-01-01" ⟨200, some [("msg", "rate limited")]⟩).2.1
      [("msg", "rate limited")] rfl rfl (by decide),
    (C3_failure_signal "2024-01-02" ⟨200, none⟩).2.2 rfl rfl⟩

/-- Claim C5 as stated fails on the code: `fetch_apod` returns the parsed body
verbatim; for a successful response that omits `copyright` and `hdurl` the
returned record has no such fields at all — in particular its `copyright` is
not the sentinel `'No copyright info'`. -/
theorem C5_counterexample :
    fetch_apod "2024-01-01" ⟨200, some rec1⟩ = Except.ok rec1 ∧
    getKey rec1 "copyright" = none ∧
    getKey rec1 "copyright" ≠ some "No copyright info" ∧
    getKey rec1 "hdurl" = none ∧
    getKey rec1 "hdurl" ≠ some "" :=
  ⟨rfl, by decide, by decide, by decide, by decide⟩

/-- Claim C5 amended: `fetch_apod` returns the successful response body
verbatim, with no defaults applied; the Data Model defaults are applied only
when the record is persisted, by the `new_data` construction inside
`update_apod_db`: an absent `copyright` becomes `'No copyright info'` and an
absent `hdurl` becomes `''` in the persisted row. -/
theorem C5_defaults_at_persist (d : String) (r : Response) (b : ApodData)
    (h200 : r.status_code = 200) (hb : r.body = some b)
    (hd : hasKey b "date" = true) :
    fetch_apod d r = Except.ok b ∧
    ∀ row, new_data b = Except.ok row →
      (getKey b "copyright" = none → row.copyright = "No copyright info") ∧
      (getKey b "hdurl" = none → row.hdurl = "") := by
  refine ⟨by simp [fetch_apod, h200, hb, hd], ?_⟩
  intro row hrow
  obtain ⟨-, rfl⟩ := new_data_ok_inv b row hrow
  exact ⟨fun h => by simp [mkRow, h], fun h => by simp [mkRow, h]⟩

/-- Claim C5 (amended) witness at a record without `copyright`/`hdurl`. -/
theorem C5_defaults_at_persist_witness :
    fetch_apod "2024-01-01" ⟨200, some rec1⟩ = Except.ok rec1 ∧
    ∀ row, new_data rec1 = Except.ok row →
      (getKey rec1 "copyright" = none → row.copyright = "No copyright info") ∧
      (getKey rec1 "hdurl" = none → row.hdurl = "") :=
  C5_defaults_at_persist "2024-01-01" ⟨200, some rec1⟩ rec1 rfl rfl (by decide)

example :
    update_apod_db
      [("date", "2024-01-01"), ("title", "T2"), ("explanation", "E2"),
        ("media_type", "image"), ("url", "http://x/2")]
      (some [⟨"2024-01-01", "T1", "E", "No copyright info", "image", "http://x/1", ""⟩]) =
    Except.ok
      { apod_df := [⟨"2024-01-01", "T1", "E", "No copyright info", "image", "http://x/1", ""⟩],
        written :=
          [["date", "title", "explanation", "copyright", "media_type", "url", "hdurl"],
            ["2024-01-01", "T1", "E", "No copyright info", "image", "http://x/1", ""]] } := rfl

end APOD
